import Mathlib

/-!
Verification of the core fluid-simulation engine of `src/main.rs`
(kugiyasan/fluid_simulation).

The Rust code is shallowly embedded over exact rationals (`ℚ` stands for
`f32`; every property settled here is structural — which cells are read,
which formula is applied — not about rounding).  The grid `Vec<Vec<Cell>>`
is embedded as a total function `ℕ → ℕ → Cell` in row-major order
(`cells y x` corresponds to `grid.0[y][x]`); only indices with
`y < HEIGHT`, `x < WIDTH` are ever written by the embedded systems,
matching the Rust vectors.  A separate `Option`-valued variant
(`advectionChecked`) models the partiality of Rust `Vec` indexing (an
out-of-bounds index panics), which the total embedding cannot express.

The Rust saturating `f32 as usize` cast (truncation toward zero, negative
values clamped to 0) is embedded as `rustCastUsize q = ⌊q⌋.toNat`, which
agrees with it on every rational (both are 0 for q < 0, and truncation
coincides with the floor for q ≥ 0).
-/

namespace FluidSim

/-- Source constant `const WIDTH: usize = 20;`. -/
def WIDTH : ℕ := 20

/-- Source constant `const HEIGHT: usize = 20;`. -/
def HEIGHT : ℕ := 20

/-- Source constant `const CELL_SIZE: f32 = 30.0;`. -/
def CELL_SIZE : ℚ := 30

/-- The Bevy `Vec2`, restricted to the two fields the simulation uses. -/
structure Vec2 where
  x : ℚ
  y : ℚ
deriving DecidableEq

/-- Source type `struct Cell { velocity: Vec2, density: f32 }`. -/
structure Cell where
  velocity : Vec2
  density : ℚ
deriving DecidableEq

/-- Source type `struct Grid(Vec<Vec<Cell>>)`, row-major: `cells y x` is `self.0[y][x]`. -/
@[ext]
structure Grid where
  cells : ℕ → ℕ → Cell

/-- Constructor `Grid::new()`: every cell has `velocity = Vec2::ZERO`, `density = 0.0`. -/
def Grid.new : Grid := ⟨fun _ _ => ⟨⟨0, 0⟩, 0⟩⟩

/-- In-place single-cell assignment `self.0[y][x] = c` on the functional grid. -/
def Grid.set (g : Grid) (y x : ℕ) (c : Cell) : Grid :=
  ⟨fun b a => if b = y ∧ a = x then c else g.cells b a⟩

/-- Method `Grid::get_average`: mean of a selected scalar over the four toroidal
neighbors `self.0[y][x_minus]`, `self.0[y][x_plus]`, `self.0[y_minus][x]`,
`self.0[y_plus][x]` (lines 85-97 of `main.rs`). -/
def Grid.get_average (g : Grid) (x y : ℕ) (attr : Cell → ℚ) : ℚ :=
  let x_plus := (x + 1) % WIDTH
  let x_minus := (x + WIDTH - 1) % WIDTH
  let y_plus := (y + 1) % HEIGHT
  let y_minus := (y + HEIGHT - 1) % HEIGHT
  let n1 := attr (g.cells y x_minus)
  let n2 := attr (g.cells y x_plus)
  let n3 := attr (g.cells y_minus x)
  let n4 := attr (g.cells y_plus x)
  (n1 + n2 + n3 + n4) / 4

/-- The raster traversal `for y in 0..HEIGHT { for x in 0..WIDTH { … } }`,
as the list of visited `(y, x)` pairs in visit order. -/
def rasterCoords : List (ℕ × ℕ) :=
  (List.range HEIGHT).flatMap (fun y => (List.range WIDTH).map (fun x => (y, x)))

/-- The closure `let lerp = |a, b, k| a + k * (b - a);` of `advection_system`. -/
def lerp (a b k : ℚ) : ℚ := a + k * (b - a)

/-- The Rust `f32 as usize` cast: truncation toward zero, saturating at 0 for
negative inputs.  `⌊q⌋.toNat` agrees with it on every rational. -/
def rustCastUsize (q : ℚ) : ℕ := (⌊q⌋).toNat

/-- The innermost loop body of `diffusion_system` (lines 236-244): at cell
`p = (y, x)` of working grid `w`, sequentially update density, velocity.x and
velocity.y; each original value is read from the pre-step grid `orig`
(`grid.0[y][x]`), each average from the in-progress working grid.  Note the
velocity.x update of the source reads `grid.0[y][x].velocity.y`. -/
def diffuseCellUpdate (orig : Grid) (k : ℚ) (w : Grid) (p : ℕ × ℕ) : Grid :=
  let y := p.1
  let x := p.2
  let avgD := w.get_average x y (fun c => c.density)
  let w1 := w.set y x { w.cells y x with
    density := ((orig.cells y x).density + k * avgD) / (1 + k) }
  let avgVx := w1.get_average x y (fun c => c.velocity.x)
  let w2 := w1.set y x { w1.cells y x with
    velocity := { (w1.cells y x).velocity with
      x := ((orig.cells y x).velocity.y + k * avgVx) / (1 + k) } }
  let avgVy := w2.get_average x y (fun c => c.velocity.y)
  w2.set y x { w2.cells y x with
    velocity := { (w2.cells y x).velocity with
      y := ((orig.cells y x).velocity.y + k * avgVy) / (1 + k) } }

/-- One relaxation sweep of `diffusion_system` over the whole grid. -/
def diffusionSweep (orig : Grid) (k : ℚ) (w : Grid) : Grid :=
  rasterCoords.foldl (diffuseCellUpdate orig k) w

/-- Body of `diffusion_system` with the stiffness factored as `k = rate * dt`:
`new_grid` starts as a clone of the grid, 5 sweeps run, then the working
copy replaces the grid (lines 229-250). -/
def diffuse (rate dt : ℚ) (g : Grid) : Grid :=
  (diffusionSweep g (rate * dt))^[5] g

/-- System `diffusion_system` exactly as in the source: `let k = 15.0 * time.delta_seconds();`. -/
def diffusion_system (dt : ℚ) (g : Grid) : Grid := diffuse 15 dt g

/-- The innermost loop body of `advection_system` (lines 258-278): at cell
`p = (y, x)` of working grid `w`, backtrace `f = (x, y) - velocity * dt`
(velocity read from the working copy), cast to indices with `as usize`,
bilinearly sample the density of the working copy (second row pair reversed,
exactly as in the source) and overwrite the density of this cell. -/
def advectCellUpdate (dt : ℚ) (w : Grid) (p : ℕ × ℕ) : Grid :=
  let y := p.1
  let x := p.2
  let fx : ℚ := (x : ℚ) - (w.cells y x).velocity.x * dt
  let fy : ℚ := (y : ℚ) - (w.cells y x).velocity.y * dt
  let ix := rustCastUsize fx
  let iy := rustCastUsize fy
  let jx := fx - (ix : ℚ)
  let jy := fy - (iy : ℚ)
  let z1 := lerp ((w.cells iy ix).density) ((w.cells iy ((ix + 1) % WIDTH)).density) jx
  let z2 := lerp ((w.cells ((iy + 1) % HEIGHT) ix).density) ((w.cells iy ix).density) jx
  w.set y x { w.cells y x with density := lerp z1 z2 jy }

/-- One of the 5 sub-steps of `advection_system` over the whole grid. -/
def advectionSweep (dt : ℚ) (w : Grid) : Grid :=
  rasterCoords.foldl (advectCellUpdate dt) w

/-- System `advection_system` (lines 252-284): clone the grid, run the sub-step 5
times on the working copy, then replace the grid with it. -/
def advection_system (dt : ℚ) (g : Grid) : Grid :=
  (advectionSweep dt)^[5] g

/-- Rust `Vec`-indexing semantics: `grid.0[y][x]` panics unless
`y < HEIGHT ∧ x < WIDTH`; modeled as an `Option` read. -/
def Grid.getc (g : Grid) (y x : ℕ) : Option Cell :=
  if y < HEIGHT ∧ x < WIDTH then some (g.cells y x) else none

/-- Variant of `advectCellUpdate` with every grid access bounds-checked, in source read
order; returns `none` exactly when the Rust code would panic on an
out-of-bounds `Vec` index. -/
def advectCellUpdateChecked (dt : ℚ) (w : Grid) (p : ℕ × ℕ) : Option Grid :=
  let y := p.1
  let x := p.2
  (w.getc y x).bind fun c =>
    let fx : ℚ := (x : ℚ) - c.velocity.x * dt
    let fy : ℚ := (y : ℚ) - c.velocity.y * dt
    let ix := rustCastUsize fx
    let iy := rustCastUsize fy
    let jx := fx - (ix : ℚ)
    let jy := fy - (iy : ℚ)
    (w.getc iy ix).bind fun c00 =>
      (w.getc iy ((ix + 1) % WIDTH)).bind fun c10 =>
        (w.getc ((iy + 1) % HEIGHT) ix).bind fun c01 =>
          let z1 := lerp c00.density c10.density jx
          let z2 := lerp c01.density c00.density jx
          some (w.set y x { c with density := lerp z1 z2 jy })

/-- Bounds-checked variant of `advection_system`: 5 sub-steps over the
working copy, failing (like the Rust panic) on the first out-of-bounds
access. -/
def advectionChecked (dt : ℚ) (g : Grid) : Option Grid :=
  (List.range 5).foldlM (fun w _ => rasterCoords.foldlM (advectCellUpdateChecked dt) w) g

/-- Scalar multiple of a `Vec2` (the Bevy `f32 * Vec2`). -/
def scaleVec (s : ℚ) (v : Vec2) : Vec2 := ⟨s * v.x, s * v.y⟩

/-- The guarded single-cell velocity write of `print_mouse_events_system`
(lines 358-362): `if x < WIDTH && y < HEIGHT { grid.0[y][x].velocity = 5.0 * delta; }`. -/
def inject (g : Grid) (x y : ℕ) (delta : Vec2) : Grid :=
  if x < WIDTH ∧ y < HEIGHT then
    g.set y x { g.cells y x with velocity := scaleVec 5 delta }
  else g

/-- Handling of one zipped mouse event in `print_mouse_events_system`:
cell coordinates come from the cursor position divided by `CELL_SIZE` and
cast with `as usize`, then the guarded write runs. -/
def print_mouse_events_single (g : Grid) (cursorPos delta : Vec2) : Grid :=
  inject g (rustCastUsize (cursorPos.x / CELL_SIZE)) (rustCastUsize (cursorPos.y / CELL_SIZE)) delta

/-- The grid constructed by `setup` (lines 106-109): `Grid::new()` followed by
the three single-cell spike assignments at `grid.0[4][4]`. -/
def setupGrid : Grid :=
  let g0 := Grid.new
  let g1 := g0.set 4 4 { g0.cells 4 4 with density := 20 }
  let g2 := g1.set 4 4 { g1.cells 4 4 with
    velocity := { (g1.cells 4 4).velocity with x := 20 } }
  g2.set 4 4 { g2.cells 4 4 with
    velocity := { (g2.cells 4 4).velocity with y := -20 } }

/-- System `print_char_event_system` for one received character (lines 373-384):
on `'r'` the grid is replaced by `Grid::new()`, otherwise untouched. -/
def print_char_event (g : Grid) (c : Char) : Grid :=
  if c = 'r' then Grid.new else g

/-! ### Specification-side definitions

These are written from the sentences of the specification (the claims),
not from the source; the refinement theorems below compare them with the
source embedding above.  Fields are indexed `(x, y)` as the spec writes
them (the source embedding is row-major `(y, x)`). -/

/-- Modelled from the spec: the density field of a grid, spec-side
`(x, y)` indexing. -/
def densityField (g : Grid) : ℕ → ℕ → ℚ := fun x y => (g.cells y x).density

/-- Modelled from the spec: the velocity field of a grid, spec-side
`(x, y)` indexing. -/
def velocityField (g : Grid) : ℕ → ℕ → Vec2 := fun x y => (g.cells y x).velocity

/-- Modelled from the spec: the cells `(x, y)` of the grid in raster order
(row by row, x varying fastest). -/
def specRaster : List (ℕ × ℕ) :=
  (List.range HEIGHT).flatMap (fun y => (List.range WIDTH).map (fun x => (x, y)))

/-- Modelled from the spec: the coordinates of the four toroidally-adjacent
cells of `(x, y)` — west, east, north, south — for grid dimensions `W × H`. -/
def neighborCoords (W H x y : ℕ) : List (ℕ × ℕ) :=
  [((x + W - 1) % W, y), ((x + 1) % W, y), (x, (y + H - 1) % H), (x, (y + 1) % H)]

/-- Modelled from the spec: the 4-neighbor toroidal average of a scalar
field at `(x, y)`. -/
def specNbAvg (d : ℕ → ℕ → ℚ) (x y : ℕ) : ℚ :=
  (d ((x + WIDTH - 1) % WIDTH) y + d ((x + 1) % WIDTH) y +
   d x ((y + HEIGHT - 1) % HEIGHT) + d x ((y + 1) % HEIGHT)) / 4

/-- Modelled from the spec (claim C1): the Gauss-Seidel density update of
one cell `p = (x, y)`: the density of the working copy at `p` becomes
`(d0 + k*avg)/(1 + k)` with `d0` from the pre-step field and `avg` the
4-neighbor average of the in-progress working copy. -/
def specDensityCell (d0 : ℕ → ℕ → ℚ) (k : ℚ) (w : ℕ → ℕ → ℚ) (p : ℕ × ℕ) : ℕ → ℕ → ℚ :=
  fun x y =>
    if x = p.1 ∧ y = p.2 then (d0 p.1 p.2 + k * specNbAvg w p.1 p.2) / (1 + k)
    else w x y

/-- Modelled from the spec: one density relaxation sweep in raster order. -/
def specDensitySweep (d0 : ℕ → ℕ → ℚ) (k : ℚ) (w : ℕ → ℕ → ℚ) : ℕ → ℕ → ℚ :=
  specRaster.foldl (specDensityCell d0 k) w

/-- Modelled from the spec: 5 relaxation sweeps starting from a working
copy equal to the current density field. -/
def specDiffuseDensity (k : ℚ) (d0 : ℕ → ℕ → ℚ) : ℕ → ℕ → ℚ :=
  (specDensitySweep d0 k)^[5] d0

/-- Modelled from the spec (claim C3): the velocity update of one cell
`p = (x, y)`: velocity.x becomes `(v0y + k*avgx)/(1 + k)` — reading the
pre-step velocity.y, not velocity.x — and velocity.y becomes
`(v0y + k*avgy)/(1 + k)`, averages taken over the working copy. -/
def specVelCell (v0 : ℕ → ℕ → Vec2) (k : ℚ) (w : ℕ → ℕ → Vec2) (p : ℕ × ℕ) : ℕ → ℕ → Vec2 :=
  fun x y =>
    if x = p.1 ∧ y = p.2 then
      ⟨((v0 p.1 p.2).y + k * specNbAvg (fun a b => (w a b).x) p.1 p.2) / (1 + k),
       ((v0 p.1 p.2).y + k * specNbAvg (fun a b => (w a b).y) p.1 p.2) / (1 + k)⟩
    else w x y

/-- Modelled from the spec: one velocity relaxation sweep in raster order. -/
def specVelSweep (v0 : ℕ → ℕ → Vec2) (k : ℚ) (w : ℕ → ℕ → Vec2) : ℕ → ℕ → Vec2 :=
  specRaster.foldl (specVelCell v0 k) w

/-- Modelled from the spec: 5 velocity relaxation sweeps starting from the
current velocity field. -/
def specDiffuseVel (k : ℚ) (v0 : ℕ → ℕ → Vec2) : ℕ → ℕ → Vec2 :=
  (specVelSweep v0 k)^[5] v0

/-! ### Basic lemmas about the grid embedding -/

theorem Grid.set_cells_same (g : Grid) (y x : ℕ) (c : Cell) :
    (g.set y x c).cells y x = c := by
  simp [Grid.set]

theorem Grid.set_cells_ne (g : Grid) (y x : ℕ) (c : Cell) (b a : ℕ)
    (h : ¬(b = y ∧ a = x)) : (g.set y x c).cells b a = g.cells b a := by
  simp [Grid.set, h]

theorem Grid.set_set (g : Grid) (y x : ℕ) (c c' : Cell) :
    (g.set y x c).set y x c' = g.set y x c' := by
  ext b a
  by_cases h : b = y ∧ a = x <;> simp [Grid.set, h]

theorem Grid.set_self (g : Grid) (y x : ℕ) :
    g.set y x (g.cells y x) = g := by
  ext b a
  by_cases h : b = y ∧ a = x
  · obtain ⟨rfl, rfl⟩ := h
    simp [Grid.set]
  · simp [Grid.set, h]

/-- The toroidal neighbor columns are never the center column (`WIDTH = 20`). -/
theorem x_plus_ne (x : ℕ) : (x + 1) % WIDTH ≠ x := by
  simp only [WIDTH]; omega

theorem x_minus_ne (x : ℕ) : (x + WIDTH - 1) % WIDTH ≠ x := by
  simp only [WIDTH]; omega

theorem y_plus_ne (y : ℕ) : (y + 1) % HEIGHT ≠ y := by
  simp only [HEIGHT]; omega

theorem y_minus_ne (y : ℕ) : (y + HEIGHT - 1) % HEIGHT ≠ y := by
  simp only [HEIGHT]; omega

/-- Overwriting the center cell never changes a 4-neighbor average: the
stencil excludes the center, and on the 20×20 torus no neighbor coincides
with the center. -/
theorem Grid.get_average_set (g : Grid) (y x : ℕ) (c : Cell) (attr : Cell → ℚ) :
    (g.set y x c).get_average x y attr = g.get_average x y attr := by
  simp only [Grid.get_average]
  rw [Grid.set_cells_ne _ _ _ _ _ _ (fun h => x_minus_ne x h.2),
    Grid.set_cells_ne _ _ _ _ _ _ (fun h => x_plus_ne x h.2),
    Grid.set_cells_ne _ _ _ _ _ _ (fun h => y_minus_ne y h.1),
    Grid.set_cells_ne _ _ _ _ _ _ (fun h => y_plus_ne y h.1)]

theorem mem_rasterCoords (y x : ℕ) :
    (y, x) ∈ rasterCoords ↔ y < HEIGHT ∧ x < WIDTH := by
  simp [rasterCoords, List.mem_flatMap]

theorem specRaster_eq : specRaster = rasterCoords.map (fun p => (p.2, p.1)) := by
  simp only [specRaster, rasterCoords, List.map_flatMap, List.map_map]
  rfl

/-- Projecting a fold through a function that commutes with every step. -/
theorem foldl_hom_mem {α β γ : Type} (proj : α → β) (f : α → γ → α) (g : β → γ → β) :
    ∀ (l : List γ) (w : α), (∀ w' p, p ∈ l → proj (f w' p) = g (proj w') p) →
      proj (List.foldl f w l) = List.foldl g (proj w) l := by
  intro l
  induction l with
  | nil => intro w _; rfl
  | cons p t ih =>
    intro w h
    simp only [List.foldl_cons]
    rw [ih (f w p) (fun w' q hq => h w' q (List.mem_cons_of_mem _ hq)),
      h w p (List.mem_cons_self _ _)]

/-- Projecting an iterate through a function that commutes with one step. -/
theorem iterate_hom {α β : Type} (proj : α → β) (F : α → α) (G : β → β)
    (h : ∀ a, proj (F a) = G (proj a)) :
    ∀ (n : ℕ) (a : α), proj (F^[n] a) = G^[n] (proj a) := by
  intro n
  induction n with
  | zero => intro a; rfl
  | succ m ih =>
    intro a
    rw [Function.iterate_succ_apply', Function.iterate_succ_apply', h, ih]

/-! ### The per-cell diffusion update, in one-shot form -/

/-- The three sequential writes of the diffusion inner loop collapse to a
single cell overwrite, with all three averages taken over the incoming
working grid (the stencil excludes the center cell, so the intermediate
writes are invisible to the averages). -/
theorem diffuseCellUpdate_eq (orig : Grid) (k : ℚ) (w : Grid) (p : ℕ × ℕ) :
    diffuseCellUpdate orig k w p = w.set p.1 p.2
      ⟨⟨((orig.cells p.1 p.2).velocity.y +
           k * w.get_average p.2 p.1 (fun c => c.velocity.x)) / (1 + k),
        ((orig.cells p.1 p.2).velocity.y +
           k * w.get_average p.2 p.1 (fun c => c.velocity.y)) / (1 + k)⟩,
       ((orig.cells p.1 p.2).density +
           k * w.get_average p.2 p.1 (fun c => c.density)) / (1 + k)⟩ := by
  obtain ⟨y, x⟩ := p
  simp only [diffuseCellUpdate, Grid.get_average_set, Grid.set_set, Grid.set_cells_same]

theorem get_average_density (w : Grid) (x y : ℕ) :
    w.get_average x y (fun c => c.density) = specNbAvg (densityField w) x y := rfl

theorem get_average_vx (w : Grid) (x y : ℕ) :
    w.get_average x y (fun c => c.velocity.x) =
      specNbAvg (fun a b => (velocityField w a b).x) x y := rfl

theorem get_average_vy (w : Grid) (x y : ℕ) :
    w.get_average x y (fun c => c.velocity.y) =
      specNbAvg (fun a b => (velocityField w a b).y) x y := rfl

theorem densityField_diffuseCellUpdate (orig : Grid) (k : ℚ) (w : Grid) (p : ℕ × ℕ) :
    densityField (diffuseCellUpdate orig k w p) =
      specDensityCell (densityField orig) k (densityField w) (p.2, p.1) := by
  obtain ⟨y, x⟩ := p
  rw [diffuseCellUpdate_eq]
  funext a b
  by_cases h : a = x ∧ b = y
  · obtain ⟨rfl, rfl⟩ := h
    simp [densityField, specDensityCell, Grid.set_cells_same, get_average_density]
  · have h' : ¬(b = y ∧ a = x) := fun hc => h ⟨hc.2, hc.1⟩
    simp only [densityField, specDensityCell, Grid.set_cells_ne _ _ _ _ _ _ h']
    simp [h]

theorem velocityField_diffuseCellUpdate (orig : Grid) (k : ℚ) (w : Grid) (p : ℕ × ℕ) :
    velocityField (diffuseCellUpdate orig k w p) =
      specVelCell (velocityField orig) k (velocityField w) (p.2, p.1) := by
  obtain ⟨y, x⟩ := p
  rw [diffuseCellUpdate_eq]
  funext a b
  by_cases h : a = x ∧ b = y
  · obtain ⟨rfl, rfl⟩ := h
    simp [velocityField, specVelCell, Grid.set_cells_same, get_average_vx, get_average_vy]
  · have h' : ¬(b = y ∧ a = x) := fun hc => h ⟨hc.2, hc.1⟩
    simp only [velocityField, specVelCell, Grid.set_cells_ne _ _ _ _ _ _ h']
    simp [h]

theorem densityField_diffusionSweep (orig : Grid) (k : ℚ) (w : Grid) :
    densityField (diffusionSweep orig k w) =
      specDensitySweep (densityField orig) k (densityField w) := by
  unfold diffusionSweep specDensitySweep
  rw [specRaster_eq, List.foldl_map]
  exact foldl_hom_mem densityField _ _ rasterCoords w
    (fun w' p _ => densityField_diffuseCellUpdate orig k w' p)

theorem velocityField_diffusionSweep (orig : Grid) (k : ℚ) (w : Grid) :
    velocityField (diffusionSweep orig k w) =
      specVelSweep (velocityField orig) k (velocityField w) := by
  unfold diffusionSweep specVelSweep
  rw [specRaster_eq, List.foldl_map]
  exact foldl_hom_mem velocityField _ _ rasterCoords w
    (fun w' p _ => velocityField_diffuseCellUpdate orig k w' p)

/-! ### Claim theorems -/

/-- C1: `diffuse` performs exactly 5 relaxation sweeps over a working copy
initialized to the current grid; in each sweep, for every cell (x, y) in
raster order, the density of the working copy at (x, y) is set to
`(d0 + k*avg)/(1 + k)` with `k = diffusion_rate * dt`, `d0` the density of
(x, y) in the pre-step grid (the same value in every sweep), and `avg` the
4-neighbor toroidal average of density read from the in-progress working
copy; after the sweeps the working copy replaces the grid.  Proved as a
refinement: the density field of the source embedding equals the
spec-worded 5-sweep Gauss-Seidel iteration, for every rate and dt (the
source hard-codes `diffusion_rate = 15`, the second conjunct). -/
theorem C1_diffusion_density_refines_spec :
    (∀ (rate dt : ℚ) (g : Grid),
      densityField (diffuse rate dt g) = specDiffuseDensity (rate * dt) (densityField g))
    ∧ ∀ (dt : ℚ) (g : Grid), diffusion_system dt g = diffuse 15 dt g := by
  constructor
  · intro rate dt g
    unfold diffuse specDiffuseDensity
    exact iterate_hom densityField _ _
      (fun w => densityField_diffusionSweep g (rate * dt) w) 5 g
  · intro dt g
    rfl

/-- C3: in every diffusion sweep, the velocity.x the working copy holds at each cell
is assigned `(v0y + k*avgx)/(1 + k)` — where `v0y` is the pre-step
velocity.y, not velocity.x — and velocity.y is assigned the symmetric
`(v0y + k*avgy)/(1 + k)`, with the neighbor averages taken from the working
copy.  Proved as a refinement of the spec-worded velocity iteration, for
every rate and dt. -/
theorem C3_diffusion_velocity_reads_vy :
    ∀ (rate dt : ℚ) (g : Grid),
      velocityField (diffuse rate dt g) = specDiffuseVel (rate * dt) (velocityField g) := by
  intro rate dt g
  unfold diffuse specDiffuseVel
  exact iterate_hom velocityField _ _
    (fun w => velocityField_diffusionSweep g (rate * dt) w) 5 g

/-! ### The diffusion step at stiffness k = 0 -/

/-- The value a cell receives from the diffusion inner loop when `k = 0`:
density kept, but BOTH velocity components set to the pre-step velocity.y
(the velocity.x line of the source reads `velocity.y`). -/
def diffuseZeroCell (orig : Grid) (p : ℕ × ℕ) : Cell :=
  ⟨⟨(orig.cells p.1 p.2).velocity.y, (orig.cells p.1 p.2).velocity.y⟩,
   (orig.cells p.1 p.2).density⟩

theorem diffuseCellUpdate_zero (orig w : Grid) (p : ℕ × ℕ) :
    diffuseCellUpdate orig 0 w p = w.set p.1 p.2 (diffuseZeroCell orig p) := by
  rw [diffuseCellUpdate_eq]
  simp [diffuseZeroCell]

/-- Folding writes whose value depends only on the visited coordinate. -/
theorem foldl_set_const (F : ℕ × ℕ → Cell) :
    ∀ (l : List (ℕ × ℕ)) (w : Grid) (y x : ℕ),
      (List.foldl (fun w' p => w'.set p.1 p.2 (F p)) w l).cells y x
        = if (y, x) ∈ l then F (y, x) else w.cells y x := by
  intro l
  induction l with
  | nil => intro w y x; simp
  | cons q t ih =>
    intro w y x
    simp only [List.foldl_cons]
    rw [ih]
    by_cases ht : (y, x) ∈ t
    · simp [ht]
    · by_cases hq : (y, x) = q
      · subst hq
        simp [ht, Grid.set_cells_same]
      · have h' : ¬(y = q.1 ∧ x = q.2) := by
          intro hc
          exact hq (by obtain ⟨c1, c2⟩ := hc; obtain ⟨q1, q2⟩ := q; simp_all)
        simp [ht, hq, Grid.set_cells_ne _ _ _ _ _ _ h']

theorem diffusionSweep_zero_cells (orig w : Grid) (y x : ℕ) :
    (diffusionSweep orig 0 w).cells y x
      = if (y, x) ∈ rasterCoords then diffuseZeroCell orig (y, x) else w.cells y x := by
  unfold diffusionSweep
  have h : diffuseCellUpdate orig 0 = fun w' p => w'.set p.1 p.2 (diffuseZeroCell orig p) :=
    funext fun w' => funext fun p => diffuseCellUpdate_zero orig w' p
  rw [h, foldl_set_const]

theorem diffuse_k_zero (rate dt : ℚ) (h : rate * dt = 0) (g : Grid) (y x : ℕ)
    (hy : y < HEIGHT) (hx : x < WIDTH) :
    (diffuse rate dt g).cells y x = diffuseZeroCell g (y, x) := by
  unfold diffuse
  rw [h, Function.iterate_succ_apply', diffusionSweep_zero_cells]
  simp [mem_rasterCoords, hy, hx]

/-- The concrete grid of the C2 failing input: cell (x=0, y=0) has
velocity (1, 2); everything else is zero. -/
def gC2 : Grid := ⟨fun y x => if y = 0 ∧ x = 0 then ⟨⟨1, 2⟩, 0⟩ else ⟨⟨0, 0⟩, 0⟩⟩

/-- C2 (code bug): the spec requires `diffuse` with `dt = 0` (or rate 0) to
leave every cell unchanged, but on the failing input — cell (0,0) with
velocity (1, 2), dt = 0 — the code sets velocity.x of the cell to its
velocity.y: after `diffusion_system 0`, velocity.x at (0,0) is 2, not the
original 1.  Density and velocity.y are indeed unchanged; the violation
comes from the velocity.x line reading `velocity.y` (main.rs line 241). -/
theorem C2_zero_k_changes_velocity_x :
    ((diffusion_system 0 gC2).cells 0 0).velocity.x = 2
    ∧ (gC2.cells 0 0).velocity.x = 1
    ∧ ((diffusion_system 0 gC2).cells 0 0).velocity.x ≠ (gC2.cells 0 0).velocity.x := by
  have h : (diffusion_system 0 gC2).cells 0 0 = diffuseZeroCell gC2 (0, 0) :=
    diffuse_k_zero 15 0 (by norm_num) gC2 0 0 (by norm_num [HEIGHT]) (by norm_num [WIDTH])
  rw [h]
  refine ⟨?_, ?_, ?_⟩ <;> simp [diffuseZeroCell, gC2]

/-! ### Advection at zero velocity -/

theorem rustCastUsize_natCast (n : ℕ) : rustCastUsize (n : ℚ) = n := by
  simp [rustCastUsize, Int.floor_natCast]

theorem lerp_zero (a b : ℚ) : lerp a b 0 = a := by
  simp [lerp]

theorem advectCellUpdate_zero_vel (dt : ℚ) (w : Grid) (y x : ℕ)
    (h : (w.cells y x).velocity = ⟨0, 0⟩) :
    advectCellUpdate dt w (y, x) = w := by
  have hx : (w.cells y x).velocity.x = 0 := by rw [h]
  have hy : (w.cells y x).velocity.y = 0 := by rw [h]
  simp only [advectCellUpdate, hx, hy, zero_mul, sub_zero, rustCastUsize_natCast,
    sub_self, lerp_zero]
  exact Grid.set_self w y x

theorem advectionSweep_zero_vel (dt : ℚ) (g : Grid)
    (h : ∀ y x, y < HEIGHT → x < WIDTH → (g.cells y x).velocity = ⟨0, 0⟩) :
    advectionSweep dt g = g := by
  unfold advectionSweep
  have key : ∀ l : List (ℕ × ℕ), (∀ p ∈ l, p ∈ rasterCoords) →
      List.foldl (advectCellUpdate dt) g l = g := by
    intro l
    induction l with
    | nil => intro _; rfl
    | cons q t ih =>
      intro hl
      have hq := (mem_rasterCoords q.1 q.2).1 (hl q (List.mem_cons_self _ _))
      simp only [List.foldl_cons]
      rw [show advectCellUpdate dt g q = g from ?step]
      · exact ih (fun p hp => hl p (List.mem_cons_of_mem _ hp))
      · obtain ⟨qy, qx⟩ := q
        exact advectCellUpdate_zero_vel dt g qy qx (h qy qx hq.1 hq.2)
  exact key rasterCoords (fun p hp => hp)

/-- C7: if the velocity of every in-range cell is the zero vector then advection
(for any dt) leaves the grid — in particular the density of every cell —
unchanged: the backtrace source equals the destination. -/
theorem C7_advection_zero_velocity_identity :
    ∀ (dt : ℚ) (g : Grid),
      (∀ y x, y < HEIGHT → x < WIDTH → (g.cells y x).velocity = ⟨0, 0⟩) →
      advection_system dt g = g := by
  intro dt g h
  unfold advection_system
  exact Function.iterate_fixed (advectionSweep_zero_vel dt g h) 5

/-- Witness for C7 at the all-zero grid and dt = 3. -/
theorem C7_witness : advection_system 3 Grid.new = Grid.new :=
  C7_advection_zero_velocity_identity 3 Grid.new (fun _ _ _ _ => rfl)

/-! ### Advection formula, saturation and bounds -/

/-- C5: `advection_system` runs 5 sub-steps; each sub-step sets, for every
cell (x, y), the density of the working copy to `lerp(z1, z2, jy)` where
`f = (x, y) - velocity(x, y) * dt` (velocity from the working copy),
`(ix, iy)` are the integer parts of `f` (the hypotheses `0 ≤ fx`, `0 ≤ fy`
pin that reading; the negative case is claim C10), `(jx, jy)` its
fractional offsets, `z1 = lerp(d(ix, iy), d((ix+1) % WIDTH, iy), jx)` and
`z2 = lerp(d(ix, (iy+1) % HEIGHT), d(ix, iy), jx)` — the row order of `z2`
reversed relative to `z1` — with all density samples from the working
copy. -/
theorem C5_advection_bilinear :
    (∀ (dt : ℚ) (g : Grid), advection_system dt g = (advectionSweep dt)^[5] g)
    ∧ ∀ (dt : ℚ) (w : Grid) (y x ix iy : ℕ) (fx fy jx jy : ℚ),
      fx = (x : ℚ) - (w.cells y x).velocity.x * dt →
      fy = (y : ℚ) - (w.cells y x).velocity.y * dt →
      0 ≤ fx → 0 ≤ fy →
      ix = (⌊fx⌋).toNat → iy = (⌊fy⌋).toNat →
      jx = fx - (ix : ℚ) → jy = fy - (iy : ℚ) →
      ((advectCellUpdate dt w (y, x)).cells y x).density =
        lerp (lerp ((w.cells iy ix).density) ((w.cells iy ((ix + 1) % WIDTH)).density) jx)
             (lerp ((w.cells ((iy + 1) % HEIGHT) ix).density) ((w.cells iy ix).density) jx)
             jy := by
  constructor
  · intro dt g
    rfl
  · intro dt w y x ix iy fx fy jx jy hfx hfy _ _ hix hiy hjx hjy
    subst hfx hfy hix hiy hjx hjy
    simp only [advectCellUpdate, rustCastUsize, Grid.set_cells_same]

/-- Witness for C5 at the all-zero grid, dt = 0, cell (x=3, y=2). -/
theorem C5_witness :
    (0 : ℚ) ≤ 3 ∧ (0 : ℚ) ≤ 2 ∧
    ((advectCellUpdate 0 Grid.new (2, 3)).cells 2 3).density =
      lerp (lerp ((Grid.new.cells 2 3).density) ((Grid.new.cells 2 ((3 + 1) % WIDTH)).density) 0)
           (lerp ((Grid.new.cells ((2 + 1) % HEIGHT) 3).density) ((Grid.new.cells 2 3).density) 0)
           0 :=
  ⟨by norm_num, by norm_num,
    C5_advection_bilinear.2 0 Grid.new 2 3 3 2 3 2 0 0
      (by norm_num [Grid.new]) (by norm_num [Grid.new]) (by norm_num) (by norm_num)
      (by norm_num; decide) (by norm_num; decide)
      (by norm_num) (by norm_num)⟩

theorem rustCastUsize_neg (q : ℚ) (h : q < 0) : rustCastUsize q = 0 := by
  have h1 : (⌊q⌋ : ℚ) ≤ q := Int.floor_le q
  have h2 : ⌊q⌋ < 0 := by exact_mod_cast lt_of_le_of_lt h1 h
  simpa [rustCastUsize] using Int.toNat_of_nonpos (le_of_lt h2)

/-- C10: when a component of the backtraced position `f` is negative, the
`as usize` cast saturates to 0 (it neither panics nor wraps toroidally):
the index becomes 0 and the fractional offset `j = f - 0 = f` stays
negative, so the bilinear sample is an extrapolation anchored at column
(or row) 0 rather than a sample of the toroidally wrapped source cell.
Stated for the x component (first conjunct: the pure saturation facts for
any negative rational, hence also for `fy`; second conjunct: the resulting
density formula anchored at column 0 with negative coefficient `fx`). -/
theorem C10_negative_backtrace_saturates :
    (∀ q : ℚ, q < 0 →
      rustCastUsize q = 0 ∧ q - ((rustCastUsize q : ℕ) : ℚ) = q
        ∧ q - ((rustCastUsize q : ℕ) : ℚ) < 0)
    ∧ ∀ (dt : ℚ) (w : Grid) (y x : ℕ) (fx : ℚ),
      fx = (x : ℚ) - (w.cells y x).velocity.x * dt →
      fx < 0 →
      ((advectCellUpdate dt w (y, x)).cells y x).density =
        lerp
          (lerp ((w.cells (rustCastUsize ((y : ℚ) - (w.cells y x).velocity.y * dt)) 0).density)
                ((w.cells (rustCastUsize ((y : ℚ) - (w.cells y x).velocity.y * dt))
                    ((0 + 1) % WIDTH)).density)
                fx)
          (lerp ((w.cells ((rustCastUsize ((y : ℚ) - (w.cells y x).velocity.y * dt) + 1) % HEIGHT)
                    0).density)
                ((w.cells (rustCastUsize ((y : ℚ) - (w.cells y x).velocity.y * dt)) 0).density)
                fx)
          (((y : ℚ) - (w.cells y x).velocity.y * dt)
            - ((rustCastUsize ((y : ℚ) - (w.cells y x).velocity.y * dt) : ℕ) : ℚ)) := by
  constructor
  · intro q hq
    have h0 := rustCastUsize_neg q hq
    rw [h0]
    norm_num [hq]
  · intro dt w y x fx hfx hneg
    subst hfx
    have h0 := rustCastUsize_neg _ hneg
    simp only [advectCellUpdate, h0, Nat.cast_zero, sub_zero, Grid.set_cells_same]

/-- The concrete grid of the C10 witness: cell (x=0, y=0) has velocity
(5, 0), so at dt = 1 the backtrace gives `fx = -5 < 0`. -/
def gC10 : Grid := ⟨fun y x => if y = 0 ∧ x = 0 then ⟨⟨5, 0⟩, 0⟩ else ⟨⟨0, 0⟩, 0⟩⟩

/-- Witness for C10: the saturation facts at `q = -5`, and the anchored
formula at the concrete grid `gC10` with dt = 1 at cell (0,0). -/
theorem C10_witness :
    ((-5 : ℚ) < 0 ∧ rustCastUsize (-5 : ℚ) = 0) ∧
    ((advectCellUpdate 1 gC10 (0, 0)).cells 0 0).density = 0 := by
  refine ⟨⟨by norm_num, (C10_negative_backtrace_saturates.1 (-5) (by norm_num)).1⟩, ?_⟩
  have h := C10_negative_backtrace_saturates.2 1 gC10 0 0
    ((0 : ℚ) - (gC10.cells 0 0).velocity.x * 1) rfl (by norm_num [gC10])
  rw [h]
  have hd : ∀ a b : ℕ, (gC10.cells a b).density = 0 := by
    intro a b
    by_cases hab : a = 0 ∧ b = 0 <;> simp [gC10, hab]
  simp [lerp, hd]

/-! ### Neighbor averaging, injection bounds, reset -/

/-- C4: for every grid, coordinate and field selector, `get_average`
returns the arithmetic mean of the selected field over exactly the four
toroidally-adjacent cells `((x+WIDTH-1) % WIDTH, y)`, `((x+1) % WIDTH, y)`,
`(x, (y+HEIGHT-1) % HEIGHT)`, `(x, (y+1) % HEIGHT)` (first conjunct); the
center cell is excluded — for in-range coordinates it is never among the
sampled cells (second conjunct); and on a 3×3 grid the corner (0,0)
samples exactly (2,0), (1,0), (0,2), (0,1) (third conjunct).  The
embedding is a pure function, so nothing is mutated. -/
theorem C4_get_average_toroidal :
    (∀ (g : Grid) (x y : ℕ) (attr : Cell → ℚ),
      g.get_average x y attr =
        ((neighborCoords WIDTH HEIGHT x y).map (fun p => attr (g.cells p.2 p.1))).sum / 4)
    ∧ (∀ x y : ℕ, x < WIDTH → y < HEIGHT → (x, y) ∉ neighborCoords WIDTH HEIGHT x y)
    ∧ neighborCoords 3 3 0 0 = [(2, 0), (1, 0), (0, 2), (0, 1)] := by
  refine ⟨?_, ?_, by decide⟩
  · intro g x y attr
    simp [Grid.get_average, neighborCoords]
    ring
  · intro x y hx hy
    simp only [neighborCoords, List.mem_cons, List.not_mem_nil, or_false, Prod.mk.injEq]
    push_neg
    exact ⟨fun h => absurd h.symm (x_minus_ne x), fun h => absurd h.symm (x_plus_ne x),
      fun _ h => absurd h.symm (y_minus_ne y), fun _ h => absurd h.symm (y_plus_ne y)⟩

/-- Witness for C4 at the zero grid and the corner (0,0) of the 20×20 grid. -/
theorem C4_witness :
    (0 < WIDTH ∧ 0 < HEIGHT ∧ (0, 0) ∉ neighborCoords WIDTH HEIGHT 0 0) ∧
    Grid.new.get_average 0 0 (fun c => c.density) =
      ((neighborCoords WIDTH HEIGHT 0 0).map (fun p => (Grid.new.cells p.2 p.1).density)).sum / 4 :=
  ⟨⟨by decide, by decide, C4_get_average_toroidal.2.1 0 0 (by decide) (by decide)⟩,
    C4_get_average_toroidal.1 Grid.new 0 0 (fun c => c.density)⟩

/-- C8: the pointer-drag velocity write rejects out-of-range coordinates
as a no-op (the whole grid, velocities and densities alike, is returned
untouched; nothing is wrapped), and for an in-range coordinate it
overwrites the velocity of exactly the single cell (x, y) with `5 * delta`,
leaving the density of that cell and every other cell unchanged. -/
theorem C8_inject_bounds :
    (∀ (g : Grid) (x y : ℕ) (delta : Vec2),
      WIDTH ≤ x ∨ HEIGHT ≤ y → inject g x y delta = g)
    ∧ ∀ (g : Grid) (x y : ℕ) (delta : Vec2), x < WIDTH → y < HEIGHT →
        ((inject g x y delta).cells y x).velocity = scaleVec 5 delta
        ∧ ((inject g x y delta).cells y x).density = (g.cells y x).density
        ∧ ∀ b a : ℕ, ¬(b = y ∧ a = x) → (inject g x y delta).cells b a = g.cells b a := by
  constructor
  · intro g x y delta h
    have hc : ¬(x < WIDTH ∧ y < HEIGHT) := by omega
    simp [inject, hc]
  · intro g x y delta hx hy
    have hc : x < WIDTH ∧ y < HEIGHT := ⟨hx, hy⟩
    refine ⟨?_, ?_, ?_⟩
    · simp [inject, hc, Grid.set_cells_same]
    · simp [inject, hc, Grid.set_cells_same]
    · intro b a h
      simp [inject, hc, Grid.set_cells_ne _ _ _ _ _ _ h]

/-- Witness for C8: the out-of-range write at x = 25 is a no-op, and the
in-range write at (1, 2) sets the velocity of that cell to 5 * (1, 1). -/
theorem C8_witness :
    (WIDTH ≤ 25 ∧ inject Grid.new 25 0 ⟨1, 1⟩ = Grid.new) ∧
    ((1 : ℕ) < WIDTH ∧ (2 : ℕ) < HEIGHT ∧
      ((inject Grid.new 1 2 ⟨1, 1⟩).cells 2 1).velocity = scaleVec 5 ⟨1, 1⟩) :=
  ⟨⟨by decide, C8_inject_bounds.1 Grid.new 25 0 ⟨1, 1⟩ (Or.inl (by decide))⟩,
    ⟨by decide, by decide,
      (C8_inject_bounds.2 Grid.new 1 2 ⟨1, 1⟩ (by decide) (by decide)).1⟩⟩

/-- C9 counterexample: the claim says the grid immediately after reset
equals the grid immediately after the startup construction (including the
single-cell startup spike).  At the concrete input `setupGrid` (the
post-startup grid) this is false: reset yields `Grid::new()`, whose cell
(4,4) has density 0, while the post-startup grid has density 20 there. -/
theorem C9_cex_reset_drops_spike :
    print_char_event setupGrid 'r' ≠ setupGrid
    ∧ ((print_char_event setupGrid 'r').cells 4 4).density = 0
    ∧ (setupGrid.cells 4 4).density = 20 := by
  have h1 : print_char_event setupGrid 'r' = Grid.new := by
    simp [print_char_event]
  have h2 : (setupGrid.cells 4 4).density = 20 := by
    simp [setupGrid, Grid.set_cells_same]
  refine ⟨?_, by rw [h1]; rfl, h2⟩
  intro h
  rw [h1] at h
  have h3 := congrArg (fun g => (g.cells 4 4).density) h
  simp only [Grid.new] at h3
  rw [h2] at h3
  exact absurd h3 (by norm_num)

/-- C9 amended: reset (on the 'r' key) replaces the entire grid with a
freshly constructed `Grid::new()` — the all-zero grid; unlike the startup
construction it does NOT reapply the single-cell spike, so the post-reset
state differs from the post-startup state at cell (4,4) (density 0 versus
20, velocity (0,0) versus (20,-20)). -/
theorem C9_amended_reset_is_plain_new :
    ∀ g : Grid, print_char_event g 'r' = Grid.new
      ∧ Grid.new.cells 4 4 = ⟨⟨0, 0⟩, 0⟩
      ∧ setupGrid.cells 4 4 = ⟨⟨20, -20⟩, 20⟩ := by
  intro g
  refine ⟨by simp [print_char_event], rfl, ?_⟩
  simp [setupGrid, Grid.set_cells_same, Grid.new]

/-- The concrete grid of the C6 failing input: cell (x=0, y=0) has
velocity (-25, 0); everything else is zero.  At dt = 1 the backtrace of
cell (0,0) is `f.x = 0 - (-25) * 1 = 25`, so `ix = 25 ≥ WIDTH = 20` and the
raw read `new_grid.0[iy][ix]` indexes out of bounds. -/
def gC6 : Grid := ⟨fun y x => if y = 0 ∧ x = 0 then ⟨⟨-25, 0⟩, 0⟩ else ⟨⟨0, 0⟩, 0⟩⟩

/-- C6 (code bug): the claim — every index the advection step uses is in
bounds, for every velocity field and dt — fails on the code: with the
bounds-checked semantics of Rust `Vec` indexing, the step on `gC6` at
dt = 1 aborts (returns `none`, modeling the index panic), because the
unwrapped cast index `ix = 25` is not below `WIDTH = 20`. -/
theorem cast25 : rustCastUsize ((0 : ℚ) - (gC6.cells 0 0).velocity.x * 1) = 25 := by
  have hv : (gC6.cells 0 0).velocity.x = -25 := by simp [gC6]
  rw [hv]
  norm_num [rustCastUsize]
  decide

theorem cast0 : rustCastUsize ((0 : ℚ) - (gC6.cells 0 0).velocity.y * 1) = 0 := by
  have hv : (gC6.cells 0 0).velocity.y = 0 := by simp [gC6]
  rw [hv]
  norm_num [rustCastUsize]

/-- On `gC6` at dt = 1, the very first cell the sweep visits already makes
an out-of-bounds access: `ix = 25 ≥ WIDTH`. -/
theorem advectCellUpdateChecked_gC6 : advectCellUpdateChecked 1 gC6 (0, 0) = none := by
  have e1 : Grid.getc gC6 0 0 = some ⟨⟨-25, 0⟩, 0⟩ := by
    simp [Grid.getc, gC6, HEIGHT, WIDTH]
  have e4 : Grid.getc gC6 0 25 = none := by
    simp [Grid.getc, WIDTH]
  simp only [advectCellUpdateChecked, e1, Option.some_bind]
  have c25 : rustCastUsize (((0 : ℕ) : ℚ) - (-25) * 1) = 25 := by
    norm_num [rustCastUsize]
    decide
  have c0 : rustCastUsize (((0 : ℕ) : ℚ) - 0 * 1) = 0 := by
    norm_num [rustCastUsize]
  simp only [c25, c0, e4, Option.none_bind]

theorem foldlM_cons_none {α β : Type} (f : α → β → Option α) (w : α) (p : β) (l : List β)
    (h : f w p = none) : List.foldlM f w (p :: l) = none := by
  simp [List.foldlM_cons, h]

theorem rasterCoords_head : rasterCoords = (0, 0) :: rasterCoords.tail := rfl

/-- C6 (code bug): the claim — every index the advection step uses is in
bounds, for every velocity field and dt — fails on the code: with the
bounds-checked semantics of Rust `Vec` indexing, the step on `gC6` at
dt = 1 aborts (returns `none`, modeling the index panic), because the
unwrapped cast index `ix = 25` is not below `WIDTH = 20`. -/
theorem C6_advection_index_out_of_bounds :
    advectionChecked 1 gC6 = none
    ∧ rustCastUsize ((0 : ℚ) - (gC6.cells 0 0).velocity.x * 1) = 25
    ∧ ¬(25 < WIDTH) := by
  refine ⟨?_, cast25, by decide⟩
  have hsweep : rasterCoords.foldlM (advectCellUpdateChecked 1) gC6 = none := by
    rw [rasterCoords_head]
    exact foldlM_cons_none _ _ _ _ advectCellUpdateChecked_gC6
  have hr5 : List.range 5 = [0, 1, 2, 3, 4] := rfl
  unfold advectionChecked
  rw [hr5]
  simp [List.foldlM_cons, hsweep]

end FluidSim
